import Mathlib

/-!
Verification of the Data-Annotator model-training and inference core.

Functions from `src/backend/app.py`, `src/backend/yolo_model.py`,
`src/backend/few_shot_model.py` and `src/backend/ensure_class_consistency.py`
are shallowly embedded below.  Floating-point values are modelled as
rationals, Python dicts holding predictions as a record with optional
fields, and Python association order of dicts as association lists.
-/

namespace DataAnnotator

/-- Model of the prediction dictionaries produced by the two models and
consumed by `calculate_uncertainty_score` (app.py).  Keys that a producer
may omit are `Option`s: the few-shot model emits label-only dictionaries
without geometry and without an `isVerified` key. -/
structure PredDict where
  x : Option ℚ
  y : Option ℚ
  width : Option ℚ
  height : Option ℚ
  label : String
  confidence : Option ℚ
  source : String
  isVerified : Option Bool
deriving Repr, DecidableEq

/-- Model of `pred.get('confidence', 0.5)` in app.py. -/
def predGetConfidence (p : PredDict) : ℚ := p.confidence.getD (1/2)

/-- The set of labels occurring in a prediction list (Python `set(labels)`). -/
def labelSet (ps : List PredDict) : Finset String :=
  (ps.map PredDict.label).toFinset

/-- Model of `sum(pred.get('confidence', 0.5) for pred in ps) / len(ps) if ps
else 0` in `calculate_uncertainty_score` (app.py). -/
def avgConfOr0 (ps : List PredDict) : ℚ :=
  if ps = [] then 0 else (ps.map predGetConfidence).sum / ps.length

/-- The unguarded per-list mean confidence (only ever applied to non-empty
lists inside the estimator). -/
def meanConf (ps : List PredDict) : ℚ :=
  (ps.map predGetConfidence).sum / ps.length

/-- Shallow embedding of `calculate_uncertainty_score(yolo_preds,
few_shot_preds)` from `src/backend/app.py` (lines 1038-1092).  The two
`'x' in few_shot_preds[0]` branches of the source are identical, so they
collapse here.  The final line of the source is `min(1.0, uncertainty)`:
the score is capped above at 1 but never clamped below at 0. -/
def calculate_uncertainty_score (yolo_preds few_shot_preds : List PredDict) : ℚ :=
  if yolo_preds = [] ∧ few_shot_preds = [] then 1
  else if yolo_preds = [] ∨ few_shot_preds = [] then 4/5
  else
    let all_labels := labelSet yolo_preds ∪ labelSet few_shot_preds
    let common_labels := labelSet yolo_preds ∩ labelSet few_shot_preds
    let label_disagreement : ℚ :=
      1 - (if all_labels.Nonempty then (common_labels.card : ℚ) / (all_labels.card : ℚ) else 0)
    let pred_count_diff : ℚ := |(yolo_preds.length : ℚ) - (few_shot_preds.length : ℚ)|
    let count_disagreement : ℚ := min (1/5) (pred_count_diff * (1/10))
    let yolo_conf_avg := avgConfOr0 yolo_preds
    let few_shot_conf_avg := avgConfOr0 few_shot_preds
    let avg_confidence := (yolo_conf_avg + few_shot_conf_avg) / 2
    let confidence_uncertainty := 1 - avg_confidence
    min 1 (6/10 * label_disagreement + 3/10 * confidence_uncertainty
            + 1/10 * count_disagreement)

/-- The uncertainty score exactly as the specification sentence words it:
`confidenceUncertainty = 1 − average(confidence across both sets)` read as
the pooled mean over the union of the two prediction lists, and the final
value `clamp(..., 0, 1)` clamped on both sides. -/
def claimedUncertaintyScore (yolo_preds few_shot_preds : List PredDict) : ℚ :=
  if yolo_preds = [] ∧ few_shot_preds = [] then 1
  else if yolo_preds = [] ∨ few_shot_preds = [] then 4/5
  else
    let all_labels := labelSet yolo_preds ∪ labelSet few_shot_preds
    let common_labels := labelSet yolo_preds ∩ labelSet few_shot_preds
    let label_disagreement : ℚ := 1 - (common_labels.card : ℚ) / (all_labels.card : ℚ)
    let count_disagreement : ℚ :=
      min (1/5) ((1/10) * |(yolo_preds.length : ℚ) - (few_shot_preds.length : ℚ)|)
    let pooled := meanConf (yolo_preds ++ few_shot_preds)
    let confidence_uncertainty := 1 - pooled
    max 0 (min 1 (6/10 * label_disagreement + 3/10 * confidence_uncertainty
                   + 1/10 * count_disagreement))

/-- The amended reading of the claim: per-model mean confidences are
averaged (not the pooled mean), and the combination is only capped above
at 1, never clamped below at 0. -/
def amendedUncertaintyScore (yolo_preds few_shot_preds : List PredDict) : ℚ :=
  if yolo_preds = [] ∧ few_shot_preds = [] then 1
  else if yolo_preds = [] ∨ few_shot_preds = [] then 4/5
  else
    let all_labels := labelSet yolo_preds ∪ labelSet few_shot_preds
    let common_labels := labelSet yolo_preds ∩ labelSet few_shot_preds
    let label_disagreement : ℚ := 1 - (common_labels.card : ℚ) / (all_labels.card : ℚ)
    let count_disagreement : ℚ :=
      min (1/5) ((1/10) * |(yolo_preds.length : ℚ) - (few_shot_preds.length : ℚ)|)
    let confidence_uncertainty := 1 - (meanConf yolo_preds + meanConf few_shot_preds) / 2
    min 1 (6/10 * label_disagreement + 3/10 * confidence_uncertainty
            + 1/10 * count_disagreement)

theorem labelSet_nonempty {ps : List PredDict} (h : ps ≠ []) : (labelSet ps).Nonempty := by
  cases ps with
  | nil => exact absurd rfl h
  | cons p ps => exact ⟨p.label, by simp [labelSet]⟩

theorem score_self_formula (A : List PredDict) (h : A ≠ []) :
    calculate_uncertainty_score A A = min 1 ((3/10) * (1 - meanConf A)) := by
  have hs := labelSet_nonempty h
  have hcard : ((labelSet A).card : ℚ) ≠ 0 := by
    have hp : 0 < (labelSet A).card := Finset.card_pos.mpr hs
    exact_mod_cast hp.ne'
  unfold calculate_uncertainty_score
  rw [if_neg (fun hc => h hc.1), if_neg (by rintro (hc | hc) <;> exact h hc)]
  simp only [Finset.inter_self, Finset.union_self, if_pos hs, sub_self, abs_zero, zero_mul,
    avgConfOr0, if_neg h]
  rw [div_self hcard, min_eq_right (by norm_num : (0:ℚ) ≤ 1/5)]
  simp only [meanConf]
  congr 1
  ring

/-- C1: the uncertainty score returns 1 when both prediction lists are empty
and 4/5 when exactly one is empty, but in the general case it does not match
the claimed formula: the code caps the combination above at 1 without
clamping below at 0, and it averages the two per-model mean confidences
instead of the pooled mean over both sets.  At identical single predictions
with confidence 2 the code yields -3/10 where the claimed clamp yields 0,
and at lists of unequal length the per-model and pooled means differ. -/
theorem uncertainty_score_ne_claimed :
    calculate_uncertainty_score
        [⟨none, none, none, none, "cat", some 2, "ai", some false⟩]
        [⟨none, none, none, none, "cat", some 2, "ai", some false⟩] ≠
      claimedUncertaintyScore
        [⟨none, none, none, none, "cat", some 2, "ai", some false⟩]
        [⟨none, none, none, none, "cat", some 2, "ai", some false⟩] ∧
    calculate_uncertainty_score
        [⟨none, none, none, none, "cat", some 1, "ai", some false⟩]
        [⟨none, none, none, none, "cat", some 0, "ai", some false⟩,
         ⟨none, none, none, none, "cat", some 0, "ai", some false⟩] ≠
      claimedUncertaintyScore
        [⟨none, none, none, none, "cat", some 1, "ai", some false⟩]
        [⟨none, none, none, none, "cat", some 0, "ai", some false⟩,
         ⟨none, none, none, none, "cat", some 0, "ai", some false⟩] := by
  refine ⟨?_, ?_⟩
  · norm_num [calculate_uncertainty_score, claimedUncertaintyScore, labelSet,
      avgConfOr0, meanConf, predGetConfidence]
  · norm_num [calculate_uncertainty_score, claimedUncertaintyScore, labelSet,
      avgConfOr0, meanConf, predGetConfidence]
    rw [if_neg (by simp), if_neg (by simp)]
    norm_num

/-- C1 (amended): the uncertainty score is 1 when both lists are empty, 4/5
when exactly one is empty, and otherwise equals min(1, 0.6·labelDisagreement
+ 0.3·confidenceUncertainty + 0.1·countDisagreement) where
confidenceUncertainty uses the average of the two per-model mean
confidences (a missing confidence counting as 0.5); there is no lower
clamp at 0. -/
theorem uncertainty_score_eq_amended (yolo few : List PredDict) :
    calculate_uncertainty_score yolo few = amendedUncertaintyScore yolo few := by
  unfold calculate_uncertainty_score amendedUncertaintyScore
  split_ifs with h1 h2
  · rfl
  · rfl
  · push_neg at h2
    obtain ⟨hy, hf⟩ := h2
    have hall : (labelSet yolo ∪ labelSet few).Nonempty :=
      (labelSet_nonempty hy).mono Finset.subset_union_left
    simp only [if_pos hall, avgConfOr0, meanConf, if_neg hy, if_neg hf]
    congr 1
    ring_nf

/-- C9: for a non-empty list A of predictions all carrying confidence 1/2,
the self-score is 3/20, which is not at most 1/10 — the claim's bound fails
on agreement with middling confidence. -/
theorem selfscore_counterexample :
    ¬ (calculate_uncertainty_score
        [⟨none, none, none, none, "cat", some (1/2), "ai", some false⟩]
        [⟨none, none, none, none, "cat", some (1/2), "ai", some false⟩] ≤ 1/10) := by
  rw [score_self_formula _ (by simp)]
  norm_num [meanConf, predGetConfidence]

/-- C9 (amended): for every non-empty A, the self-score equals
min(1, 0.3·(1 − meanConf A)) and is at most 1/10 exactly when the mean
confidence of A is at least 2/3. -/
theorem selfscore_amended (A : List PredDict) (h : A ≠ []) :
    calculate_uncertainty_score A A = min 1 ((3/10) * (1 - meanConf A)) ∧
      (calculate_uncertainty_score A A ≤ 1/10 ↔ (2/3 : ℚ) ≤ meanConf A) := by
  have heq := score_self_formula A h
  refine ⟨heq, ?_⟩
  rw [heq]
  constructor
  · intro hle
    rcases min_le_iff.mp hle with h1 | h1 <;> linarith
  · intro hge
    calc min 1 ((3/10) * (1 - meanConf A)) ≤ (3/10) * (1 - meanConf A) := min_le_right _ _
      _ ≤ 1/10 := by linarith

theorem selfscore_amended_witness :
    ([(⟨none, none, none, none, "cat", some 1, "ai", some false⟩ : PredDict)] ≠
        ([] : List PredDict)) ∧
      (calculate_uncertainty_score
          [(⟨none, none, none, none, "cat", some 1, "ai", some false⟩ : PredDict)]
          [(⟨none, none, none, none, "cat", some 1, "ai", some false⟩ : PredDict)] =
        min 1 ((3/10) * (1 - meanConf
          [(⟨none, none, none, none, "cat", some 1, "ai", some false⟩ : PredDict)])) ∧
      (calculate_uncertainty_score
          [(⟨none, none, none, none, "cat", some 1, "ai", some false⟩ : PredDict)]
          [(⟨none, none, none, none, "cat", some 1, "ai", some false⟩ : PredDict)] ≤ 1/10 ↔
        (2/3 : ℚ) ≤ meanConf
          [(⟨none, none, none, none, "cat", some 1, "ai", some false⟩ : PredDict)])) :=
  ⟨by simp, selfscore_amended
    [(⟨none, none, none, none, "cat", some 1, "ai", some false⟩ : PredDict)] (by simp)⟩

/-!
Class Registry: `update_class_mapping` from
`src/backend/ensure_class_consistency.py` (lines 56-92).  Python dicts are
modelled as association lists in insertion order: looking a key up finds
its first binding, and a new key is appended at the end.
-/

/-- A class mapping (Python dict from label to integer id). -/
abbrev ClassMap := List (String × ℕ)

/-- Code-point comparison of characters, as Python string comparison uses. -/
def charsLe : List Char → List Char → Bool
  | [], _ => true
  | _ :: _, [] => false
  | a :: as, b :: bs =>
    if a.toNat < b.toNat then true
    else if b.toNat < a.toNat then false
    else charsLe as bs

/-- Lexicographic code-point order on strings (Python `<=` on str). -/
def strLe (a b : String) : Bool := charsLe a.data b.data

/-- Stable insertion of a string into a sorted list. -/
def insertSorted (a : String) : List String → List String
  | [] => [a]
  | b :: bs => if strLe a b then a :: b :: bs else b :: insertSorted a bs

/-- Ascending sort of a list of strings (model of Python `sorted`). -/
def sortLabels : List String → List String
  | [] => []
  | a :: as => insertSorted a (sortLabels as)

/-- Model of Python `sorted(list(set(xs)))`. -/
def sortedDedup (xs : List String) : List String := sortLabels xs.dedup

/-- The `for label, idx in existing_map.items(): if label in classes` loop of
`update_class_mapping`: existing labels still observed keep their ids. -/
def keptClasses (existing : ClassMap) (classes : List String) : ClassMap :=
  existing.filter (fun p => classes.contains p.1)

/-- Model of `next_id = max(class_map.values()) + 1 if class_map else 0`. -/
def nextFreeId (kept : ClassMap) : ℕ :=
  if kept = [] then 0 else (kept.map Prod.snd).foldr max 0 + 1

/-- The `for label in classes: if label not in class_map` loop: labels not
yet mapped are appended with consecutive fresh ids. -/
def addNewClasses : List String → ClassMap → ℕ → ClassMap
  | [], m, _ => m
  | c :: cs, m, n =>
    if (m.lookup c).isSome then addNewClasses cs m n
    else addNewClasses cs (m ++ [(c, n)]) (n + 1)

/-- Shallow embedding of `update_class_mapping(classes)` from
`ensure_class_consistency.py`, with the on-disk mapping made an explicit
argument. -/
def update_class_mapping (existing : ClassMap) (classes : List String) : ClassMap :=
  let kept := keptClasses existing classes
  addNewClasses classes kept (nextFreeId kept)

/-- A registry update as the callers perform it: the label set is passed as
`sorted(list(set(...)))`. -/
def registryUpdate (existing : ClassMap) (labels : List String) : ClassMap :=
  update_class_mapping existing (sortedDedup labels)

theorem lookup_append_of_some {α β : Type} [BEq α] {l₁ : List (α × β)} (l₂ : List (α × β))
    {a : α} {b : β} (h : l₁.lookup a = some b) : (l₁ ++ l₂).lookup a = some b := by
  induction l₁ with
  | nil => simp [List.lookup] at h
  | cons p l ih =>
    obtain ⟨k, v⟩ := p
    rw [List.cons_append, List.lookup] at *
    cases hk : a == k with
    | true => rw [hk] at h; simpa [hk] using h
    | false => rw [hk] at h; simpa [hk] using ih h

theorem lookup_append_of_none {α β : Type} [BEq α] {l₁ : List (α × β)} (l₂ : List (α × β))
    {a : α} (h : l₁.lookup a = none) : (l₁ ++ l₂).lookup a = l₂.lookup a := by
  induction l₁ with
  | nil => simp
  | cons p l ih =>
    obtain ⟨k, v⟩ := p
    rw [List.cons_append, List.lookup] at *
    cases hk : a == k with
    | true => rw [hk] at h; simp at h
    | false => rw [hk] at h; simpa [hk] using ih h

theorem lookup_addNewClasses_of_some {cs : List String} {m : ClassMap} {n : ℕ}
    {l : String} {i : ℕ} (h : m.lookup l = some i) :
    (addNewClasses cs m n).lookup l = some i := by
  induction cs generalizing m n with
  | nil => simpa [addNewClasses] using h
  | cons c cs ih =>
    rw [addNewClasses]
    by_cases hm : (m.lookup c).isSome
    · rw [if_pos hm]; exact ih h
    · rw [if_neg hm]; exact ih (lookup_append_of_some _ h)

theorem lookup_keptClasses {existing : ClassMap} {classes : List String}
    {l : String} {i : ℕ} (h : existing.lookup l = some i)
    (hmem : classes.contains l = true) :
    (keptClasses existing classes).lookup l = some i := by
  induction existing with
  | nil => simp [List.lookup] at h
  | cons p es ih =>
    obtain ⟨k, v⟩ := p
    rw [List.lookup] at h
    by_cases hlk : l = k
    · subst hlk
      simp only [beq_self_eq_true] at h
      rw [keptClasses, List.filter_cons, if_pos (by simpa using hmem)]
      simpa [List.lookup] using h
    · have hbeq : (l == k) = false := beq_eq_false_iff_ne.mpr hlk
      rw [hbeq] at h
      rw [keptClasses, List.filter_cons]
      split_ifs with hf
      · rw [List.lookup, hbeq]
        exact ih h
      · exact ih h

theorem lookup_isSome_addNewClasses {cs : List String} {m : ClassMap} {n : ℕ} {l : String}
    (h : ((addNewClasses cs m n).lookup l).isSome) :
    (m.lookup l).isSome ∨ l ∈ cs := by
  induction cs generalizing m n with
  | nil => exact Or.inl (by simpa [addNewClasses] using h)
  | cons c cs ih =>
    rw [addNewClasses] at h
    by_cases hm : (m.lookup c).isSome
    · rw [if_pos hm] at h
      rcases ih h with h1 | h1
      · exact Or.inl h1
      · exact Or.inr (List.mem_cons_of_mem _ h1)
    · rw [if_neg hm] at h
      rcases ih h with h1 | h1
      · cases hml : m.lookup l with
        | some v => exact Or.inl (by simp [hml])
        | none =>
          rw [lookup_append_of_none _ hml] at h1
          by_cases hlc : l = c
          · exact Or.inr (hlc ▸ List.mem_cons_self _ _)
          · rw [List.lookup, beq_eq_false_iff_ne.mpr hlc] at h1
            simp [List.lookup] at h1
      · exact Or.inr (List.mem_cons_of_mem _ h1)

theorem mem_insertSorted {a x : String} {l : List String} :
    x ∈ insertSorted a l ↔ x ∈ a :: l := by
  induction l with
  | nil => simp [insertSorted]
  | cons b bs ih =>
    rw [insertSorted]
    split_ifs with hle
    · rfl
    · simp only [List.mem_cons, ih, List.mem_cons]
      tauto

theorem mem_sortLabels {x : String} {l : List String} : x ∈ sortLabels l ↔ x ∈ l := by
  induction l with
  | nil => rfl
  | cons a as ih =>
    rw [sortLabels, mem_insertSorted]
    simp [ih]

theorem mem_sortedDedup {x : String} {l : List String} : x ∈ sortedDedup l ↔ x ∈ l := by
  rw [sortedDedup, mem_sortLabels, List.mem_dedup]

theorem registry_keeps_ids (existing : ClassMap) (classes : List String) (l : String) (i : ℕ)
    (h : existing.lookup l = some i) (hmem : l ∈ classes) :
    (update_class_mapping existing classes).lookup l = some i := by
  unfold update_class_mapping
  exact lookup_addNewClasses_of_some
    (lookup_keptClasses h (List.elem_eq_true_of_mem hmem))

theorem registry_seq_stable (L1 L2 : List String) (hsub : ∀ l ∈ L1, l ∈ L2)
    (l : String) (i : ℕ) (h : (registryUpdate [] L1).lookup l = some i) :
    (registryUpdate (registryUpdate [] L1) L2).lookup l = some i := by
  have hkey : l ∈ sortedDedup L1 := by
    have hsome : (((registryUpdate [] L1)).lookup l).isSome := by simp [h]
    rw [registryUpdate, update_class_mapping] at hsome
    rcases lookup_isSome_addNewClasses hsome with h1 | h1
    · simp [keptClasses, List.lookup] at h1
    · exact h1
  have hl2 : l ∈ sortedDedup L2 := mem_sortedDedup.mpr (hsub l (mem_sortedDedup.mp hkey))
  exact registry_keeps_ids _ _ _ _ h hl2

theorem registry_addNew_formula (cs : List String) (m : ClassMap) (n : ℕ) (h : cs.Nodup) :
    addNewClasses cs m n =
      m ++ (List.enumFrom n (cs.filter (fun c => (m.lookup c).isNone))).map
        (fun p => (p.2, p.1)) := by
  induction cs generalizing m n with
  | nil => simp [addNewClasses]
  | cons c cs ih =>
    rcases List.nodup_cons.mp h with ⟨hc, hcs⟩
    rw [addNewClasses]
    by_cases hm : (m.lookup c).isSome
    · rw [if_pos hm, ih _ _ hcs]
      have hfil : (c :: cs).filter (fun c => (m.lookup c).isNone)
          = cs.filter (fun c => (m.lookup c).isNone) := by
        rw [List.filter_cons, if_neg (by simpa [Option.isNone_iff_eq_none] using hm)]
      rw [hfil]
    · rw [if_neg hm, ih _ _ hcs]
      have hfil : cs.filter (fun x => ((m ++ [(c, n)]).lookup x).isNone)
          = cs.filter (fun x => (m.lookup x).isNone) := by
        apply List.filter_congr
        intro x hx
        have hxc : x ≠ c := fun hxeq => hc (hxeq ▸ hx)
        cases hml : m.lookup x with
        | some b => simp [lookup_append_of_some _ hml, hml]
        | none =>
          rw [lookup_append_of_none _ hml]
          simp [List.lookup, beq_eq_false_iff_ne.mpr hxc, hml]
      have hnone : m.lookup c = none := by
        cases hml : m.lookup c with
        | none => rfl
        | some b => exact absurd (by simp [hml]) hm
      have hcfil : (c :: cs).filter (fun x => (m.lookup x).isNone)
          = c :: cs.filter (fun x => (m.lookup x).isNone) := by
        rw [List.filter_cons, if_pos (by simp [hnone])]
      rw [hfil, hcfil, List.enumFrom]
      simp

/-- C2: the claim fails on the code in two ways.  `Update(["b"])` then
`Update(["a","b"])` leaves "b" at id 0 while a fresh `Update(["a","b"])`
gives "b" id 1, so sequential updates do not reproduce the fresh
assignment.  And when a stored label ("b" at id 5) is absent from the new
label set, its id is dropped from the maximum, so the new label "c"
receives id 1, not max(existing ids)+1 = 6. -/
theorem registry_counterexample :
    List.lookup "b" (registryUpdate (registryUpdate [] ["b"]) ["a", "b"]) = some 0 ∧
    List.lookup "b" (registryUpdate [] ["a", "b"]) = some 1 ∧
    List.lookup "c" (update_class_mapping [("a", 0), ("b", 5)] ["a", "c"]) = some 1 := by
  refine ⟨by decide, by decide, by decide⟩

/-- C2 (amended): (1) for L1 ⊆ L2, running the registry update on L1 and
then on L2 keeps, for every label of L1, the id the first update assigned
(not the id a fresh update on L2 would assign); (2) in every update, a
stored label that is also in the new label set keeps its id; (3) labels not
in the stored mapping are appended in list order with consecutive ids
starting at max(retained ids)+1 (0 when nothing is retained), where
retained means stored labels the new, sorted and deduplicated, label set
still contains. -/
theorem registry_update_amended :
    (∀ L1 L2 : List String, (∀ l ∈ L1, l ∈ L2) → ∀ l i,
        (registryUpdate [] L1).lookup l = some i →
        (registryUpdate (registryUpdate [] L1) L2).lookup l = some i) ∧
    (∀ (existing : ClassMap) (classes : List String) (l : String) (i : ℕ),
        existing.lookup l = some i → l ∈ classes →
        (update_class_mapping existing classes).lookup l = some i) ∧
    (∀ (existing : ClassMap) (classes : List String), classes.Nodup →
        update_class_mapping existing classes =
          keptClasses existing classes ++
            (List.enumFrom (nextFreeId (keptClasses existing classes))
              (classes.filter (fun c => ((keptClasses existing classes).lookup c).isNone))).map
              (fun p => (p.2, p.1))) :=
  ⟨registry_seq_stable, registry_keeps_ids,
    fun _ classes h => registry_addNew_formula classes _ _ h⟩

theorem registry_update_amended_witness :
    (∀ l ∈ ["a"], l ∈ ["a", "b"]) ∧
      List.lookup "a" (registryUpdate (registryUpdate [] ["a"]) ["a", "b"]) = some 0 :=
  ⟨by decide, registry_update_amended.1 ["a"] ["a", "b"] (by decide) "a" 0 (by decide)⟩

/-!
Dataset Builder: `YOLOModel.prepare_data` from `src/backend/yolo_model.py`
and the `/augment_images` endpoint from `src/backend/app.py`.  File names
are modelled as a stem plus extension, matching the `os.path.splitext`
splits the source performs; the file system and numpy's seeded random
generator are explicit parameters.
-/

/-- A file name split into stem and extension (`os.path.splitext`). -/
structure FName where
  stem : String
  ext : String
deriving Repr, DecidableEq

/-- The full file name. -/
def FName.full (f : FName) : String := f.stem ++ f.ext

/-- A bounding-box annotation as stored with an image. -/
structure BBox where
  x : ℚ
  y : ℚ
  width : ℚ
  height : ℚ
  label : String
  isVerified : Bool
deriving Repr, DecidableEq

/-- An image record as handed to `prepare_data` (empty stem and extension
model a missing `filename` key). -/
structure ImageData where
  filename : FName
  annotations : List BBox
  isFullyAnnotated : Bool
deriving Repr, DecidableEq

/-- The verified boxes of an image (`[box for box in annotations if
box.get('isVerified', False)]`). -/
def verifiedBoxes (img : ImageData) : List BBox :=
  img.annotations.filter (fun b => b.isVerified)

/-- The filtering step of `prepare_data`: keep images with at least one
verified annotation. -/
def validImages (imgs : List ImageData) : List ImageData :=
  imgs.filter (fun i => !(verifiedBoxes i).isEmpty)

/-- All labels of verified boxes across the valid images, in scan order. -/
def verifiedLabelList (imgs : List ImageData) : List String :=
  (validImages imgs).flatMap (fun i => (verifiedBoxes i).map (fun b => b.label))

/-- The fresh class mapping `prepare_data` writes:
`{name: idx for idx, name in enumerate(sorted(classes))}`. -/
def prepareClassMap (imgs : List ImageData) : List (String × ℕ) :=
  (sortedDedup (verifiedLabelList imgs)).enum.map (fun p => (p.2, p.1))

/-- Model of `int(0.8 * n)`: the size of the training sample. -/
def trainFraction (n : ℕ) : ℕ := 4 * n / 5

/-- The numpy global random generator: a current state plus the pure
sampling function `choice` applied to it.  `np.random.seed(42)` replaces
the state; `np.random.choice(n, k, replace=False)` reads it. -/
structure NumpyRandom where
  state : ℕ
  choiceFn : ℕ → ℕ → ℕ → List ℕ

/-- Model of `np.random.seed(s)`. -/
def npSeed (s : ℕ) (g : NumpyRandom) : NumpyRandom := { g with state := s }

/-- Model of `np.random.choice(population, size, replace=False)`. -/
def npChoice (g : NumpyRandom) (population size : ℕ) : List ℕ :=
  g.choiceFn g.state population size

/-- The training index sample of `prepare_data`: the generator is seeded
with the fixed seed 42 immediately before drawing. -/
def trainIndexList (g : NumpyRandom) (n : ℕ) : List ℕ :=
  npChoice (npSeed 42 g) n (trainFraction n)

/-- The file names assigned to the training partition (index in the drawn
sample). -/
def trainPartition (g : NumpyRandom) (imgs : List ImageData) : List FName :=
  ((validImages imgs).enum.filter
      (fun p => (trainIndexList g (validImages imgs).length).contains p.1)).map
    (fun p => p.2.filename)

/-- The file names assigned to the validation partition. -/
def valPartition (g : NumpyRandom) (imgs : List ImageData) : List FName :=
  ((validImages imgs).enum.filter
      (fun p => !(trainIndexList g (validImages imgs).length).contains p.1)).map
    (fun p => p.2.filename)

/-- The file-system effects `prepare_data` depends on: whether the source
image exists under `uploads/`, whether PIL can open it and report its size
(`none` models the caught exception), and whether the copy-and-write-labels
block for a destination path succeeds. -/
structure FileSystem where
  uploadExists : FName → Bool
  imageDims : FName → Option (ℕ × ℕ)
  ioOk : String → Bool

/-- Destination path of a training image. -/
def trainImgDest (f : FName) : String := "datasets/train/images/" ++ f.full

/-- Destination path of a validation image. -/
def valImgDest (f : FName) : String := "datasets/val/images/" ++ f.full

/-- The per-image gates of the processing loop in `prepare_data`: verified
boxes present, a non-empty filename, the source file on disk, readable
image dimensions, and a successful copy/label-write block. -/
def processedOk (fs : FileSystem) (img : ImageData) (dest : String) : Bool :=
  !(verifiedBoxes img).isEmpty && !(img.filename.full == "") &&
    fs.uploadExists img.filename && (fs.imageDims img.filename).isSome && fs.ioOk dest

/-- `successful_train_images` at the end of the loop. -/
def successfulTrainCount (fs : FileSystem) (g : NumpyRandom) (imgs : List ImageData) : ℕ :=
  ((validImages imgs).enum.filter (fun p =>
      (trainIndexList g (validImages imgs).length).contains p.1 &&
        processedOk fs p.2 (trainImgDest p.2.filename))).length

/-- `successful_val_images` at the end of the loop. -/
def successfulValCount (fs : FileSystem) (g : NumpyRandom) (imgs : List ImageData) : ℕ :=
  ((validImages imgs).enum.filter (fun p =>
      !(trainIndexList g (validImages imgs).length).contains p.1 &&
        processedOk fs p.2 (valImgDest p.2.filename))).length

/-- Shallow embedding of the result of `YOLOModel.prepare_data`
(yolo_model.py lines 60-320): `False` when no image survives filtering or
no class is found, otherwise `successful_train_images > 0 and
successful_val_images > 0`. -/
def prepare_data (fs : FileSystem) (g : NumpyRandom) (imgs : List ImageData) : Bool :=
  if (validImages imgs).isEmpty then false
  else if (prepareClassMap imgs).isEmpty then false
  else decide (0 < successfulTrainCount fs g imgs) && decide (0 < successfulValCount fs g imgs)

theorem validImages_ne_nil_classMap {imgs : List ImageData}
    (h : ¬(validImages imgs).isEmpty = true) : ¬(prepareClassMap imgs).isEmpty = true := by
  intro hcm
  apply h
  cases hv : validImages imgs with
  | nil => simp [hv]
  | cons v rest =>
    exfalso
    have hvmem : v ∈ validImages imgs := hv ▸ List.mem_cons_self _ _
    have hvmem2 : v ∈ imgs.filter (fun i => !(verifiedBoxes i).isEmpty) := by
      rw [validImages] at hvmem; exact hvmem
    have hvb : (!(verifiedBoxes v).isEmpty) = true := (List.mem_filter.mp hvmem2).2
    cases hb : verifiedBoxes v with
    | nil => rw [hb] at hvb; simp at hvb
    | cons b bs =>
      have hlab : b.label ∈ verifiedLabelList imgs := by
        rw [verifiedLabelList]
        exact List.mem_flatMap.mpr ⟨v, hvmem, by rw [hb]; exact List.mem_cons_self _ _⟩
      have hlab2 : b.label ∈ sortedDedup (verifiedLabelList imgs) := mem_sortedDedup.mpr hlab
      have hpos : 0 < (prepareClassMap imgs).length := by
        rw [prepareClassMap, List.length_map, List.enum_length]
        exact List.length_pos.mpr (List.ne_nil_of_mem hlab2)
      rw [List.isEmpty_iff] at hcm
      rw [hcm] at hpos
      simp at hpos

/-- C3: preparation can fail with a non-empty training partition.  With two
valid images, indices drawn as `[0]`, and the validation-partition image
missing from `uploads/`, `prepare_data` returns `False` (because
`successful_val_images = 0`) although one image was assigned to, and
successfully written into, the training partition. -/
theorem prepare_data_counterexample :
    prepare_data
        ⟨fun f => f.stem == "a", fun _ => some (10, 10), fun _ => true⟩
        ⟨0, fun _ _ _ => [0]⟩
        [⟨⟨"a", ".jpg"⟩, [⟨0, 0, 1, 1, "cat", true⟩], true⟩,
         ⟨⟨"b", ".jpg"⟩, [⟨0, 0, 1, 1, "cat", true⟩], true⟩] = false ∧
    trainPartition ⟨0, fun _ _ _ => [0]⟩
        [⟨⟨"a", ".jpg"⟩, [⟨0, 0, 1, 1, "cat", true⟩], true⟩,
         ⟨⟨"b", ".jpg"⟩, [⟨0, 0, 1, 1, "cat", true⟩], true⟩] = [⟨"a", ".jpg"⟩] ∧
    successfulTrainCount
        ⟨fun f => f.stem == "a", fun _ => some (10, 10), fun _ => true⟩
        ⟨0, fun _ _ _ => [0]⟩
        [⟨⟨"a", ".jpg"⟩, [⟨0, 0, 1, 1, "cat", true⟩], true⟩,
         ⟨⟨"b", ".jpg"⟩, [⟨0, 0, 1, 1, "cat", true⟩], true⟩] = 1 := by
  refine ⟨by decide, by decide, by decide⟩

/-- C3 (amended): dataset preparation succeeds if and only if at least one
image is successfully processed into the training partition AND at least
one into the validation partition; per-image failures are skipped, but a
skip that empties either partition's successful count makes the whole
preparation fail. -/
theorem prepare_data_success_iff (fs : FileSystem) (g : NumpyRandom) (imgs : List ImageData) :
    prepare_data fs g imgs = true ↔
      0 < successfulTrainCount fs g imgs ∧ 0 < successfulValCount fs g imgs := by
  unfold prepare_data
  split_ifs with h1 h2
  · constructor
    · intro h; cases h
    · rintro ⟨ht, _⟩
      rw [List.isEmpty_iff] at h1
      rw [successfulTrainCount, h1] at ht
      simp at ht
  · exact absurd h2 (validImages_ne_nil_classMap h1)
  · simp [decide_eq_true_iff]

/-- C6: the train/validation partition is a function of the input image
list alone — the incoming state of the random generator is irrelevant
because `prepare_data` reseeds it with the fixed seed 42 before sampling,
so two runs over the same input sequence produce identical partitions. -/
theorem prepare_split_deterministic (choice : ℕ → ℕ → ℕ → List ℕ) (s₁ s₂ : ℕ)
    (imgs : List ImageData) :
    trainPartition ⟨s₁, choice⟩ imgs = trainPartition ⟨s₂, choice⟩ imgs ∧
      valPartition ⟨s₁, choice⟩ imgs = valPartition ⟨s₂, choice⟩ imgs :=
  ⟨rfl, rfl⟩

/-!
Augmentation: `ImageAugmenter.create_augmented_dataset`
(image_augmenter.py) and the `/augment_images` endpoint (app.py lines
898-1036).  The endpoint iterates over every database row with verified
annotations and writes augmented copies into `datasets/train/images`,
naming them `stem_aug<i>` + extension.
-/

/-- The name of the i-th augmented variant of a file
(`f"{splitext(p)[0]}_aug{i}{splitext(p)[1]}"`). -/
def augName (f : FName) (i : ℕ) : FName := ⟨f.stem ++ "_aug" ++ toString i, f.ext⟩

/-- Whether a character list contains the substring `_aug` (Python
`'_aug' in filename`). -/
def hasAugChars : List Char → Bool
  | [] => false
  | c :: cs => List.isPrefixOf "_aug".data (c :: cs) || hasAugChars cs

/-- Whether a file name carries the augmentation tag. -/
def hasAugTag (f : FName) : Bool := hasAugChars f.full.data

/-- The characters before the first `_aug` occurrence (Python
`name.split('_aug')[0]`). -/
def takeBeforeAug : List Char → List Char
  | [] => []
  | c :: cs => if List.isPrefixOf "_aug".data (c :: cs) then [] else c :: takeBeforeAug cs

/-- The source stem an augmented file maps back to. -/
def augSourceStem (f : FName) : String := String.mk (takeBeforeAug f.stem.data)

/-- The files `ImageAugmenter.create_augmented_dataset` writes into the
training-images directory: the original (saved at `base_output_path`) plus
one `_aug<i>` variant per successful augmentation. -/
def create_augmented_files (f : FName) (numAug : ℕ) (augOk : FName → ℕ → Bool) : List FName :=
  f :: (List.range numAug).filterMap (fun i => if augOk f i then some (augName f i) else none)

/-- Shallow embedding of the `/augment_images` endpoint's effect on the
`datasets/train/images` directory: previously present `_aug` files are
cleared, then every database row that has at least one verified box — with
no regard to the train/validation partition — gets its original and its
augmented variants written there. -/
def augment_images (rows : List (FName × List BBox)) (numAug : ℕ)
    (augOk : FName → ℕ → Bool) (trainDir : List FName) : List FName :=
  trainDir.filter (fun f => !(hasAugTag f)) ++
    (rows.filter (fun r => !(r.2.filter (fun b => b.isVerified)).isEmpty)).flatMap
      (fun r => create_augmented_files r.1 numAug augOk)

/-- How many files of a directory are augmented variants mapping back to a
given source file. -/
def augCountFor (src : FName) (dir : List FName) : ℕ :=
  (dir.filter (fun f =>
      hasAugTag f && (augSourceStem f == src.stem) && (f.ext == src.ext))).length

/-- C7: the augmentation endpoint augments validation-partition images.
With two annotated images and the sampled index list `[0]`, image `b.jpg`
lands in the validation partition, yet running `/augment_images` over the
database rows produces one `b_aug0.jpg` in the training-images directory:
its augmentation count is 1, not 0. -/
theorem augmentation_leaks_validation :
    valPartition ⟨0, fun _ _ _ => [0]⟩
        [⟨⟨"a", ".jpg"⟩, [⟨0, 0, 1, 1, "cat", true⟩], true⟩,
         ⟨⟨"b", ".jpg"⟩, [⟨0, 0, 1, 1, "cat", true⟩], true⟩] = [⟨"b", ".jpg"⟩] ∧
    augCountFor ⟨"b", ".jpg"⟩
        (augment_images
          [(⟨"a", ".jpg"⟩, [⟨0, 0, 1, 1, "cat", true⟩]),
           (⟨"b", ".jpg"⟩, [⟨0, 0, 1, 1, "cat", true⟩])]
          1 (fun _ _ => true) []) = 1 := by
  refine ⟨by decide, by decide⟩

/-!
Training Job Controller: the module-level status state of
`src/backend/yolo_model.py` and `src/backend/few_shot_model.py`, the
`train_model_thread` flows, `reset`, and `get_model_status`.  The long
fitting call is abstracted by its outcome: whether it raised, and how it
changed the artifact files on disk.
-/

/-- The status snapshot `get_model_status` returns. -/
structure TrainingStatus where
  training_in_progress : Bool
  progress : ℚ
  is_available : Bool
  is_ready : Bool
deriving Repr, DecidableEq

/-- Existence of the on-disk YOLO weight artifacts the module probes:
`model/last.pt`, `model/training/weights/last.pt`, and
`model/training/weights/best.pt`. -/
structure YoloDisk where
  lastPt : Bool
  trainingLastPt : Bool
  trainingBestPt : Bool
deriving Repr, DecidableEq

/-- The module-level mutable state of `yolo_model.py`: the four status
globals, the cached-model class variables (collapsed to one flag), and the
artifact files on disk. -/
structure YoloState where
  trainingInProgress : Bool
  trainingProgress : ℚ
  modelAvailable : Bool
  modelReady : Bool
  cachedModel : Bool
  disk : YoloDisk
deriving Repr, DecidableEq

/-- `YOLOModel.get_model_status` (yolo_model.py lines 46-58): availability
is re-probed from disk, readiness and progress are the globals. -/
def YOLOModel.get_model_status (s : YoloState) : TrainingStatus :=
  ⟨s.trainingInProgress, s.trainingProgress, s.disk.lastPt || s.disk.trainingLastPt,
    s.modelReady⟩

/-- `YOLOModel.reset` (yolo_model.py lines 601-611): clears the
availability/readiness globals and the cached model; it deletes no file
and does not touch `TRAINING_IN_PROGRESS`. -/
def YOLOModel.reset (s : YoloState) : YoloState :=
  { s with modelAvailable := false, modelReady := false, cachedModel := false }

/-- `YOLOModel.train_model_thread` (yolo_model.py lines 325-430) as a state
transformer.  `prepOk` is the outcome of `prepare_data`; `fitOk` is whether
`model.train` and the artifact copy ran without raising; `fitDisk` is the
effect the (partial) fitting run had on the artifact files.  On an
exception the `except` handler only clears `TRAINING_IN_PROGRESS`. -/
def YOLOModel.train_model_thread (prepOk fitOk : Bool) (fitDisk : YoloDisk → YoloDisk)
    (s : YoloState) : YoloState :=
  let s1 : YoloState :=
    { s with trainingInProgress := true, trainingProgress := 0, modelReady := false }
  if !prepOk then { s1 with trainingInProgress := false }
  else
    let d := fitDisk s1.disk
    if !fitOk then { s1 with disk := d, trainingInProgress := false }
    else
      let d2 := if d.trainingBestPt then { d with lastPt := true } else d
      { s1 with disk := d2,
                trainingInProgress := false,
                modelAvailable := d2.lastPt || d2.trainingBestPt,
                trainingProgress := 1,
                modelReady := true }

/-- The module-level mutable state of `few_shot_model.py`. -/
structure FewShotState where
  trainingInProgress : Bool
  trainingProgress : ℚ
  modelAvailable : Bool
  modelReady : Bool
  cachedModel : Bool
  diskModelPt : Bool
deriving Repr, DecidableEq

/-- `FewShotModelTrainer.get_model_status` (few_shot_model.py lines
104-114): all four fields come from the globals. -/
def FewShotModelTrainer.get_model_status (s : FewShotState) : TrainingStatus :=
  ⟨s.trainingInProgress, s.trainingProgress, s.modelAvailable, s.modelReady⟩

/-- `FewShotModelTrainer.reset` (few_shot_model.py lines 383-394). -/
def FewShotModelTrainer.reset (s : FewShotState) : FewShotState :=
  { s with modelAvailable := false, modelReady := false, cachedModel := false }

/-- `FewShotModelTrainer.train_model_thread` (few_shot_model.py lines
127-219).  `fitOk` is whether dataset construction and the epoch loop ran
without raising; `diskAfterFit` is whether `model/few_shot_model.pt` exists
after a partial run (the loop saves on every best loss). -/
def FewShotModelTrainer.train_model_thread (fitOk diskAfterFit : Bool)
    (s : FewShotState) : FewShotState :=
  let s1 : FewShotState :=
    { s with trainingInProgress := true, trainingProgress := 0, modelReady := false }
  if !fitOk then { s1 with diskModelPt := diskAfterFit, trainingInProgress := false }
  else
    { s1 with diskModelPt := true, trainingInProgress := false, modelAvailable := true,
              trainingProgress := 1, modelReady := true }

/-- C4: a failed fitting phase does not restore the prior `isReady`.  From
a state that was ready (a good artifact on disk), a training job whose
fitting raises ends with `is_ready = false`, while before the job
`is_ready` was `true` — the claimed equality of pre- and post-job status
fails. -/
theorem failed_fit_counterexample :
    (YOLOModel.get_model_status (YOLOModel.train_model_thread true false id
        ⟨false, 1, true, true, true, ⟨true, false, false⟩⟩)).is_ready = false ∧
    (YOLOModel.get_model_status
        ⟨false, 1, true, true, true, ⟨true, false, false⟩⟩).is_ready = true := by
  refine ⟨rfl, rfl⟩

/-- C4 (amended): after an exception in the fitting phase the job ends with
`trainingInProgress = false` and `is_ready = false` regardless of its
pre-job value (readiness is cleared at job start and never restored); the
status `is_available` keeps its pre-job value provided the aborted fitting
run left the probed artifact files unchanged (for the few-shot model it is
the untouched global flag). -/
theorem failed_fit_amended (s : YoloState) (fitDisk : YoloDisk → YoloDisk)
    (t : FewShotState) (diskAfterFit : Bool)
    (hl : (fitDisk s.disk).lastPt = s.disk.lastPt)
    (ht : (fitDisk s.disk).trainingLastPt = s.disk.trainingLastPt) :
    (YOLOModel.train_model_thread true false fitDisk s).trainingInProgress = false ∧
    (YOLOModel.get_model_status
        (YOLOModel.train_model_thread true false fitDisk s)).is_ready = false ∧
    (YOLOModel.get_model_status
        (YOLOModel.train_model_thread true false fitDisk s)).is_available =
      (YOLOModel.get_model_status s).is_available ∧
    (FewShotModelTrainer.train_model_thread false diskAfterFit t).trainingInProgress = false ∧
    (FewShotModelTrainer.get_model_status
        (FewShotModelTrainer.train_model_thread false diskAfterFit t)).is_ready = false ∧
    (FewShotModelTrainer.get_model_status
        (FewShotModelTrainer.train_model_thread false diskAfterFit t)).is_available =
      (FewShotModelTrainer.get_model_status t).is_available := by
  refine ⟨rfl, rfl, ?_, rfl, rfl, rfl⟩
  simp [YOLOModel.get_model_status, YOLOModel.train_model_thread, hl, ht]

theorem failed_fit_amended_witness :
    ((id (YoloDisk.mk true false false)).lastPt = (YoloDisk.mk true false false).lastPt) ∧
    ((id (YoloDisk.mk true false false)).trainingLastPt =
      (YoloDisk.mk true false false).trainingLastPt) ∧
    ((YOLOModel.train_model_thread true false id
        ⟨false, 1, true, true, true, ⟨true, false, false⟩⟩).trainingInProgress = false ∧
      (YOLOModel.get_model_status (YOLOModel.train_model_thread true false id
        ⟨false, 1, true, true, true, ⟨true, false, false⟩⟩)).is_ready = false ∧
      (YOLOModel.get_model_status (YOLOModel.train_model_thread true false id
        ⟨false, 1, true, true, true, ⟨true, false, false⟩⟩)).is_available =
        (YOLOModel.get_model_status
          ⟨false, 1, true, true, true, ⟨true, false, false⟩⟩).is_available ∧
      (FewShotModelTrainer.train_model_thread false false
        ⟨false, 1, true, true, true, true⟩).trainingInProgress = false ∧
      (FewShotModelTrainer.get_model_status (FewShotModelTrainer.train_model_thread false false
        ⟨false, 1, true, true, true, true⟩)).is_ready = false ∧
      (FewShotModelTrainer.get_model_status (FewShotModelTrainer.train_model_thread false false
        ⟨false, 1, true, true, true, true⟩)).is_available =
        (FewShotModelTrainer.get_model_status
          ⟨false, 1, true, true, true, true⟩).is_available) :=
  ⟨rfl, rfl, failed_fit_amended ⟨false, 1, true, true, true, ⟨true, false, false⟩⟩ id
    ⟨false, 1, true, true, true, true⟩ false rfl rfl⟩

/-- C5: `reset` does not clear `trainingInProgress`, and the YOLO status
re-probes availability from disk files that `reset` does not delete: after
`reset` from a state with training in progress the status still reports
`training_in_progress = true`, and with `model/last.pt` still on disk it
still reports `is_available = true`. -/
theorem reset_counterexample :
    (YOLOModel.get_model_status (YOLOModel.reset
        ⟨true, 1/2, true, true, true, ⟨true, false, false⟩⟩)).training_in_progress = true ∧
    (YOLOModel.get_model_status (YOLOModel.reset
        ⟨false, 1, true, true, true, ⟨true, false, false⟩⟩)).is_available = true := by
  refine ⟨rfl, rfl⟩

/-- C5 (amended): after `reset`, `is_ready` is false for both model types
and `is_available` is false for the few-shot model; but
`training_in_progress` keeps its prior value (reset never touches it), and
the YOLO `is_available` continues to reflect the on-disk `last.pt`
artifacts, which `reset` does not delete. -/
theorem reset_status_amended (s : YoloState) (t : FewShotState) :
    YOLOModel.get_model_status (YOLOModel.reset s) =
      ⟨s.trainingInProgress, s.trainingProgress,
        s.disk.lastPt || s.disk.trainingLastPt, false⟩ ∧
    FewShotModelTrainer.get_model_status (FewShotModelTrainer.reset t) =
      ⟨t.trainingInProgress, t.trainingProgress, false, false⟩ :=
  ⟨rfl, rfl⟩

/-!
Batch Inference Engine: `YOLOModel.predict_batch` (yolo_model.py lines
496-585) and `FewShotModelTrainer.predict_batch` (few_shot_model.py lines
291-373).  The loaded model, the file system and the raw detector outputs
are environment parameters; `inferExc` models an exception inside the
outer try-block, whose handler returns an all-empty mapping.
-/

/-- A raw detector box: absolute pixel corners, confidence, class index. -/
structure RawBox where
  x1 : ℚ
  y1 : ℚ
  x2 : ℚ
  y2 : ℚ
  conf : ℚ
  cls : ℤ
deriving Repr, DecidableEq

/-- Environment of the YOLO batch prediction. -/
structure YoloPredictEnv where
  modelLoaded : Bool
  classNames : ℤ → Option String
  fileExists : String → Bool
  imgDims : String → ℚ × ℚ
  results : String → List RawBox
  inferExc : Bool

/-- The geometry conversion inside `YOLOModel.predict_batch`: corners are
normalised by the image size, `x`/`y` clamped into [0, 0.999] and the box
size into [0.001, 1−x] (resp. 1−y). -/
def yoloConvert (w h : ℚ) (b : RawBox) (label : String) : PredDict :=
  let x := max 0 (min (999/1000) (b.x1 / w))
  let y := max 0 (min (999/1000) (b.y1 / h))
  let bw := max (1/1000) (min (1 - x) ((b.x2 - b.x1) / w))
  let bh := max (1/1000) (min (1 - y) ((b.y2 - b.y1) / h))
  ⟨some x, some y, some bw, some bh, label, some b.conf, "ai", some false⟩

/-- `class_names.get(cls, f"unknown_{cls}")`. -/
def yoloLabelOf (env : YoloPredictEnv) (b : RawBox) : String :=
  (env.classNames b.cls).getD ("unknown_" ++ toString b.cls)

/-- Shallow embedding of `YOLOModel.predict_batch`: unavailable model, no
valid file, or an internal exception yield an all-empty mapping; otherwise
the valid files are processed and the missing ones are filled in with
empty lists afterwards. -/
def YOLOModel.predict_batch (env : YoloPredictEnv) (filenames : List String) :
    List (String × List PredDict) :=
  if !env.modelLoaded then filenames.map (fun f => (f, []))
  else
    if (filenames.filter (fun f => env.fileExists ("uploads/" ++ f))).isEmpty then
      filenames.map (fun f => (f, []))
    else if env.inferExc then filenames.map (fun f => (f, []))
    else
      (filenames.filter (fun f => env.fileExists ("uploads/" ++ f))).map (fun f =>
        (f, (env.results f).map (fun b =>
          yoloConvert (env.imgDims ("uploads/" ++ f)).1 (env.imgDims ("uploads/" ++ f)).2 b
            (yoloLabelOf env b)))) ++
      (filenames.filter (fun f =>
        !((filenames.filter (fun g => env.fileExists ("uploads/" ++ g))).contains f))).map
        (fun f => (f, []))

/-- Environment of the few-shot batch prediction. -/
structure FewShotPredictEnv where
  modelLoaded : Bool
  classNames : List String
  fileExists : String → Bool
  imageReadOk : String → Bool
  outputs : String → List ℚ
  inferExc : Bool

/-- The per-class thresholding of the few-shot prediction loop: classes
with confidence above 0.5 become label-only prediction dictionaries with
`source = "ai"` and no geometry and no `isVerified` key. -/
def fsThreshold (p : String × ℚ) : Option PredDict :=
  if (1/2 : ℚ) < p.2 then some ⟨none, none, none, none, p.1, some p.2, "ai", none⟩
  else none

/-- Shallow embedding of `FewShotModelTrainer.predict_batch`.  The chunking
into batches of 16 does not change the resulting mapping and is omitted;
a missing or unreadable image contributes an empty list. -/
def FewShotModelTrainer.predict_batch (env : FewShotPredictEnv) (filenames : List String) :
    List (String × List PredDict) :=
  if !env.modelLoaded then filenames.map (fun f => (f, []))
  else if env.inferExc then filenames.map (fun f => (f, []))
  else filenames.map (fun f =>
    (f, if env.fileExists ("uploads/" ++ f) && env.imageReadOk f then
          (env.classNames.zip (env.outputs f)).filterMap fsThreshold
        else []))

theorem lookup_map_fn {β : Type} {l : List String} (F : String → β) {f : String}
    (h : f ∈ l) : (l.map (fun a => (a, F a))).lookup f = some (F f) := by
  induction l with
  | nil => cases h
  | cons a l ih =>
    rw [List.map_cons, List.lookup]
    by_cases hfa : f = a
    · subst hfa; simp
    · rw [beq_eq_false_iff_ne.mpr hfa]
      exact ih ((List.mem_cons.mp h).resolve_left hfa)

theorem lookup_map_fn_none {β : Type} {l : List String} (F : String → β) {f : String}
    (h : f ∉ l) : (l.map (fun a => (a, F a))).lookup f = none := by
  induction l with
  | nil => rfl
  | cons a l ih =>
    rw [List.map_cons, List.lookup]
    have hfa : f ≠ a := fun he => h (he ▸ List.mem_cons_self _ _)
    rw [beq_eq_false_iff_ne.mpr hfa]
    exact ih (fun hm => h (List.mem_cons_of_mem _ hm))

theorem toFinset_filter_split (l : List String) (p : String → Bool) :
    ((l.filter p) ++ (l.filter (fun f => !((l.filter p).contains f)))).toFinset
      = l.toFinset := by
  ext a
  simp only [List.toFinset_append, Finset.mem_union, List.mem_toFinset, List.mem_filter]
  constructor
  · rintro (⟨h, _⟩ | ⟨h, _⟩) <;> exact h
  · intro ha
    by_cases hp : p a = true
    · exact Or.inl ⟨ha, hp⟩
    · refine Or.inr ⟨ha, ?_⟩
      simpa [List.contains, List.elem_eq_mem] using Or.inr (Bool.eq_false_iff.mpr hp)

theorem clampPos_nonneg (t : ℚ) : 0 ≤ max 0 (min (999/1000) t) := le_max_left _ _

theorem clampPos_le (t : ℚ) : max 0 (min (999/1000) t) ≤ 999/1000 :=
  max_le (by norm_num) (min_le_left _ _)

theorem clampDim_le {x : ℚ} (u : ℚ) (hx : x ≤ 999/1000) :
    max (1/1000) (min (1 - x) u) ≤ 1 - x :=
  max_le (by linarith) (min_le_left _ _)

theorem yoloConvert_sound (w h : ℚ) (b : RawBox) (label : String) :
    (yoloConvert w h b label).source = "ai" ∧
    (yoloConvert w h b label).isVerified = some false ∧
    (yoloConvert w h b label).x.isSome = true ∧
    (yoloConvert w h b label).y.isSome = true ∧
    (yoloConvert w h b label).width.isSome = true ∧
    (yoloConvert w h b label).height.isSome = true ∧
    0 ≤ (yoloConvert w h b label).x.getD 0 ∧
    0 ≤ (yoloConvert w h b label).y.getD 0 ∧
    (yoloConvert w h b label).x.getD 0 + (yoloConvert w h b label).width.getD 0 ≤ 1 ∧
    (yoloConvert w h b label).y.getD 0 + (yoloConvert w h b label).height.getD 0 ≤ 1 := by
  refine ⟨rfl, rfl, rfl, rfl, rfl, rfl, ?_, ?_, ?_, ?_⟩
  · exact clampPos_nonneg _
  · exact clampPos_nonneg _
  · have h1 := clampPos_le (b.x1 / w)
    have h2 := clampDim_le ((b.x2 - b.x1) / w) h1
    show max 0 (min (999/1000) (b.x1 / w)) +
      max (1/1000) (min (1 - max 0 (min (999/1000) (b.x1 / w))) ((b.x2 - b.x1) / w)) ≤ 1
    linarith
  · have h1 := clampPos_le (b.y1 / h)
    have h2 := clampDim_le ((b.y2 - b.y1) / h) h1
    show max 0 (min (999/1000) (b.y1 / h)) +
      max (1/1000) (min (1 - max 0 (min (999/1000) (b.y1 / h))) ((b.y2 - b.y1) / h)) ≤ 1
    linarith

theorem map_fst_map_pair {β : Type} (l : List String) (F : String → β) :
    ((l.map (fun a => (a, F a))).map Prod.fst) = l := by
  induction l with
  | nil => rfl
  | cons a l ih => simp only [List.map_cons, ih]

/-- C8: the claim fails for the few-shot model: its batch prediction emits
label-only dictionaries.  At a one-class model confidently recognising one
image, the produced prediction carries `source = "ai"` but has no
`isVerified` key and no geometry at all. -/
theorem predictions_counterexample :
    FewShotModelTrainer.predict_batch
        ⟨true, ["cat"], fun _ => true, fun _ => true, fun _ => [1], false⟩ ["f.jpg"] =
      [("f.jpg", [⟨none, none, none, none, "cat", some 1, "ai", none⟩])] ∧
    (⟨none, none, none, none, "cat", some 1, "ai", none⟩ : PredDict).isVerified ≠
      some false ∧
    (⟨none, none, none, none, "cat", some 1, "ai", none⟩ : PredDict).x = none := by
  have hthr : fsThreshold ("cat", (1 : ℚ)) =
      some ⟨none, none, none, none, "cat", some 1, "ai", none⟩ := by
    unfold fsThreshold
    rw [if_pos (by norm_num : (1/2 : ℚ) < 1)]
  refine ⟨?_, by simp, rfl⟩
  simp [FewShotModelTrainer.predict_batch, hthr]

/-- C8 (amended): every YOLO batch prediction carries `source = "ai"`,
`isVerified = false` and clamped normalised geometry with 0 ≤ x, 0 ≤ y,
x+width ≤ 1 and y+height ≤ 1; every few-shot batch prediction carries
`source = "ai"` and a confidence but is label-only: it has no geometry
fields and no `isVerified` field. -/
theorem predictions_amended :
    (∀ (env : YoloPredictEnv) (filenames : List String) (f : String)
        (ps : List PredDict) (p : PredDict),
        (f, ps) ∈ YOLOModel.predict_batch env filenames → p ∈ ps →
          p.source = "ai" ∧ p.isVerified = some false ∧
          p.x.isSome = true ∧ p.y.isSome = true ∧
          p.width.isSome = true ∧ p.height.isSome = true ∧
          0 ≤ p.x.getD 0 ∧ 0 ≤ p.y.getD 0 ∧
          p.x.getD 0 + p.width.getD 0 ≤ 1 ∧ p.y.getD 0 + p.height.getD 0 ≤ 1) ∧
    (∀ (env : FewShotPredictEnv) (filenames : List String) (f : String)
        (ps : List PredDict) (p : PredDict),
        (f, ps) ∈ FewShotModelTrainer.predict_batch env filenames → p ∈ ps →
          p.source = "ai" ∧ p.confidence.isSome = true ∧ p.isVerified = none ∧
          p.x = none ∧ p.y = none ∧ p.width = none ∧ p.height = none) := by
  constructor
  · intro env filenames f ps p hmem hp
    unfold YOLOModel.predict_batch at hmem
    split_ifs at hmem with h1 h2 h3
    · obtain ⟨a, _, heq⟩ := List.mem_map.mp hmem
      cases heq
      exact absurd hp (List.not_mem_nil _)
    · obtain ⟨a, _, heq⟩ := List.mem_map.mp hmem
      cases heq
      exact absurd hp (List.not_mem_nil _)
    · obtain ⟨a, _, heq⟩ := List.mem_map.mp hmem
      cases heq
      exact absurd hp (List.not_mem_nil _)
    · rcases List.mem_append.mp hmem with hb | hfill
      · obtain ⟨g, _, heq⟩ := List.mem_map.mp hb
        cases heq
        obtain ⟨b, _, rfl⟩ := List.mem_map.mp hp
        exact yoloConvert_sound _ _ _ _
      · obtain ⟨a, _, heq⟩ := List.mem_map.mp hfill
        cases heq
        exact absurd hp (List.not_mem_nil _)
  · intro env filenames f ps p hmem hp
    unfold FewShotModelTrainer.predict_batch at hmem
    split_ifs at hmem with h1 h2
    · obtain ⟨a, _, heq⟩ := List.mem_map.mp hmem
      cases heq
      exact absurd hp (List.not_mem_nil _)
    · obtain ⟨a, _, heq⟩ := List.mem_map.mp hmem
      cases heq
      exact absurd hp (List.not_mem_nil _)
    · obtain ⟨a, _, heq⟩ := List.mem_map.mp hmem
      cases heq
      by_cases hc : env.fileExists ("uploads/" ++ f) && env.imageReadOk f
      · rw [if_pos hc] at hp
        obtain ⟨q, _, hpe⟩ := List.mem_filterMap.mp hp
        unfold fsThreshold at hpe
        split_ifs at hpe
        cases hpe
        exact ⟨rfl, rfl, rfl, rfl, rfl, rfl, rfl⟩
      · rw [if_neg hc] at hp
        exact absurd hp (List.not_mem_nil _)

theorem predictions_amended_witness :
    (("f.jpg", [yoloConvert 10 10 ⟨1, 2, 5, 7, 1, 0⟩ "cat"]) ∈
        YOLOModel.predict_batch
          ⟨true, fun _ => some "cat", fun _ => true, fun _ => (10, 10),
            fun _ => [⟨1, 2, 5, 7, 1, 0⟩], false⟩ ["f.jpg"]) ∧
    (yoloConvert 10 10 ⟨1, 2, 5, 7, 1, 0⟩ "cat" ∈
      [yoloConvert 10 10 ⟨1, 2, 5, 7, 1, 0⟩ "cat"]) ∧
    ((yoloConvert 10 10 ⟨1, 2, 5, 7, 1, 0⟩ "cat").source = "ai" ∧
      (yoloConvert 10 10 ⟨1, 2, 5, 7, 1, 0⟩ "cat").isVerified = some false ∧
      (yoloConvert 10 10 ⟨1, 2, 5, 7, 1, 0⟩ "cat").x.isSome = true ∧
      (yoloConvert 10 10 ⟨1, 2, 5, 7, 1, 0⟩ "cat").y.isSome = true ∧
      (yoloConvert 10 10 ⟨1, 2, 5, 7, 1, 0⟩ "cat").width.isSome = true ∧
      (yoloConvert 10 10 ⟨1, 2, 5, 7, 1, 0⟩ "cat").height.isSome = true ∧
      0 ≤ (yoloConvert 10 10 ⟨1, 2, 5, 7, 1, 0⟩ "cat").x.getD 0 ∧
      0 ≤ (yoloConvert 10 10 ⟨1, 2, 5, 7, 1, 0⟩ "cat").y.getD 0 ∧
      (yoloConvert 10 10 ⟨1, 2, 5, 7, 1, 0⟩ "cat").x.getD 0 +
        (yoloConvert 10 10 ⟨1, 2, 5, 7, 1, 0⟩ "cat").width.getD 0 ≤ 1 ∧
      (yoloConvert 10 10 ⟨1, 2, 5, 7, 1, 0⟩ "cat").y.getD 0 +
        (yoloConvert 10 10 ⟨1, 2, 5, 7, 1, 0⟩ "cat").height.getD 0 ≤ 1) ∧
    (("g.jpg", (List.zip ["cat"] [(1 : ℚ)]).filterMap fsThreshold) ∈
        FewShotModelTrainer.predict_batch
          ⟨true, ["cat"], fun _ => true, fun _ => true, fun _ => [1], false⟩ ["g.jpg"]) ∧
    ((⟨none, none, none, none, "cat", some 1, "ai", none⟩ : PredDict) ∈
      (List.zip ["cat"] [(1 : ℚ)]).filterMap fsThreshold) ∧
    ((⟨none, none, none, none, "cat", some 1, "ai", none⟩ : PredDict).source = "ai" ∧
      (⟨none, none, none, none, "cat", some 1, "ai", none⟩ : PredDict).confidence.isSome
        = true ∧
      (⟨none, none, none, none, "cat", some 1, "ai", none⟩ : PredDict).isVerified = none ∧
      (⟨none, none, none, none, "cat", some 1, "ai", none⟩ : PredDict).x = none ∧
      (⟨none, none, none, none, "cat", some 1, "ai", none⟩ : PredDict).y = none ∧
      (⟨none, none, none, none, "cat", some 1, "ai", none⟩ : PredDict).width = none ∧
      (⟨none, none, none, none, "cat", some 1, "ai", none⟩ : PredDict).height = none) := by
  have hy1 : ("f.jpg", [yoloConvert 10 10 ⟨1, 2, 5, 7, 1, 0⟩ "cat"]) ∈
      YOLOModel.predict_batch
        ⟨true, fun _ => some "cat", fun _ => true, fun _ => (10, 10),
          fun _ => [⟨1, 2, 5, 7, 1, 0⟩], false⟩ ["f.jpg"] := by
    simp [YOLOModel.predict_batch, yoloLabelOf]
  have hy2 : yoloConvert 10 10 ⟨1, 2, 5, 7, 1, 0⟩ "cat" ∈
      [yoloConvert 10 10 ⟨1, 2, 5, 7, 1, 0⟩ "cat"] := List.mem_cons_self _ _
  have hf1 : ("g.jpg", (List.zip ["cat"] [(1 : ℚ)]).filterMap fsThreshold) ∈
      FewShotModelTrainer.predict_batch
        ⟨true, ["cat"], fun _ => true, fun _ => true, fun _ => [1], false⟩ ["g.jpg"] := by
    simp [FewShotModelTrainer.predict_batch]
  have hthr : fsThreshold ("cat", (1 : ℚ)) =
      some ⟨none, none, none, none, "cat", some 1, "ai", none⟩ := by
    unfold fsThreshold
    rw [if_pos (by norm_num : (1/2 : ℚ) < 1)]
  have hf2 : (⟨none, none, none, none, "cat", some 1, "ai", none⟩ : PredDict) ∈
      (List.zip ["cat"] [(1 : ℚ)]).filterMap fsThreshold := by
    simp [hthr]
  exact ⟨hy1, hy2, predictions_amended.1 _ _ _ _ _ hy1 hy2, hf1, hf2,
    predictions_amended.2 _ _ _ _ _ hf1 hf2⟩

/-- C10: batch prediction of either model type is total: the key set of
the returned mapping is exactly the input filename list; a missing image
file maps to the empty list; an unavailable model or an internal exception
maps every filename to the empty list.  All failure paths return values —
the outer exception handlers of both functions produce the all-empty
mapping instead of raising. -/
theorem predict_batch_total :
    (∀ (env : YoloPredictEnv) (filenames : List String),
        ((YOLOModel.predict_batch env filenames).map Prod.fst).toFinset
          = filenames.toFinset) ∧
    (∀ (env : FewShotPredictEnv) (filenames : List String),
        ((FewShotModelTrainer.predict_batch env filenames).map Prod.fst).toFinset
          = filenames.toFinset) ∧
    (∀ (env : YoloPredictEnv) (filenames : List String) (f : String),
        f ∈ filenames → env.fileExists ("uploads/" ++ f) = false →
        (YOLOModel.predict_batch env filenames).lookup f = some []) ∧
    (∀ (env : FewShotPredictEnv) (filenames : List String) (f : String),
        f ∈ filenames → env.fileExists ("uploads/" ++ f) = false →
        (FewShotModelTrainer.predict_batch env filenames).lookup f = some []) ∧
    (∀ (env : YoloPredictEnv) (filenames : List String),
        env.modelLoaded = false ∨ env.inferExc = true →
        ∀ f ∈ filenames, (YOLOModel.predict_batch env filenames).lookup f = some []) ∧
    (∀ (env : FewShotPredictEnv) (filenames : List String),
        env.modelLoaded = false ∨ env.inferExc = true →
        ∀ f ∈ filenames,
          (FewShotModelTrainer.predict_batch env filenames).lookup f = some []) := by
  refine ⟨?_, ?_, ?_, ?_, ?_, ?_⟩
  · intro env filenames
    unfold YOLOModel.predict_batch
    split_ifs with h1 h2 h3
    · rw [map_fst_map_pair]
    · rw [map_fst_map_pair]
    · rw [map_fst_map_pair]
    · rw [List.map_append, map_fst_map_pair, map_fst_map_pair]
      exact toFinset_filter_split filenames _
  · intro env filenames
    unfold FewShotModelTrainer.predict_batch
    split_ifs with h1 h2
    · rw [map_fst_map_pair]
    · rw [map_fst_map_pair]
    · rw [map_fst_map_pair]
  · intro env filenames f hf hnot
    unfold YOLOModel.predict_batch
    split_ifs with h1 h2 h3
    · exact lookup_map_fn (fun _ => []) hf
    · exact lookup_map_fn (fun _ => []) hf
    · exact lookup_map_fn (fun _ => []) hf
    · have hfv : f ∉ filenames.filter (fun g => env.fileExists ("uploads/" ++ g)) := by
        intro hm
        exact absurd (List.mem_filter.mp hm).2 (by simp [hnot])
      rw [lookup_append_of_none _ (lookup_map_fn_none _ hfv)]
      have hffill : f ∈ filenames.filter (fun g =>
          !((filenames.filter (fun a => env.fileExists ("uploads/" ++ a))).contains g)) := by
        refine List.mem_filter.mpr ⟨hf, ?_⟩
        simpa [List.contains, List.elem_eq_mem] using Or.inr hnot
      exact lookup_map_fn (fun _ => []) hffill
  · intro env filenames f hf hnot
    unfold FewShotModelTrainer.predict_batch
    split_ifs with h1 h2
    · exact lookup_map_fn (fun _ => []) hf
    · exact lookup_map_fn (fun _ => []) hf
    · rw [lookup_map_fn _ hf]
      simp [hnot]
  · intro env filenames hcase f hf
    unfold YOLOModel.predict_batch
    split_ifs with h1 h2 h3
    · exact lookup_map_fn (fun _ => []) hf
    · exact lookup_map_fn (fun _ => []) hf
    · exact lookup_map_fn (fun _ => []) hf
    · rcases hcase with hm | he
      · exact absurd (by simp [hm]) h1
      · exact absurd he h3
  · intro env filenames hcase f hf
    unfold FewShotModelTrainer.predict_batch
    split_ifs with h1 h2
    · exact lookup_map_fn (fun _ => []) hf
    · exact lookup_map_fn (fun _ => []) hf
    · rcases hcase with hm | he
      · exact absurd (by simp [hm]) h1
      · exact absurd he h2

theorem predict_batch_total_witness :
    ("a.jpg" ∈ ["a.jpg"]) ∧
      ((fun _ : String => false) "uploads/a.jpg" = false) ∧
      (YOLOModel.predict_batch
          ⟨true, fun _ => none, fun _ => false, fun _ => (1, 1), fun _ => [], false⟩
          ["a.jpg"]).lookup "a.jpg" = some [] :=
  ⟨List.mem_cons_self _ _, rfl,
    predict_batch_total.2.2.1
      ⟨true, fun _ => none, fun _ => false, fun _ => (1, 1), fun _ => [], false⟩
      ["a.jpg"] "a.jpg" (List.mem_cons_self _ _) rfl⟩

end DataAnnotator
